import Mathlib

/-!
Verification development for the `claude-discord` relay bot
(`src/discord_bot.py`).  The Python source is shallowly embedded: text is
`List Char`, the streaming reader's mutable locals become an explicit state
record, and the per-line JSON event processing becomes a step function on
that state.  Ambient inputs (the event-loop clock, whether a Discord send
raises `HTTPException`) are supplied through a small oracle record, so the
theorems quantify over every schedule.  All definitions are translated from
the source; line numbers in the doc comments refer to `src/discord_bot.py`.
-/

/-- Text, modelled as a list of unicode scalar characters (Python `str`). -/
abbrev Str := List Char

/-- Python whitespace predicate used by `str.strip` / `str.rstrip`:
space, tab, newline, carriage return, vertical tab, form feed. -/
def pyIsSpace (c : Char) : Bool :=
  c == ' ' || c == '\t' || c == '\n' || c == '\r' ||
    c == Char.ofNat 11 || c == Char.ofNat 12

/-- Python `str.rstrip()`: drop trailing whitespace. -/
def rstrip (s : Str) : Str := (s.reverse.dropWhile pyIsSpace).reverse

/-- Python `str.lstrip()`: drop leading whitespace. -/
def lstrip (s : Str) : Str := s.dropWhile pyIsSpace

/-- Python `str.strip()`: drop whitespace on both ends. -/
def pyStrip (s : Str) : Str := lstrip (rstrip s)

/-- Python `str.split(sep)` for a single-character separator: splits at every
occurrence, keeping empty fields; `"".split(sep) == [""]`. -/
def splitOnChar (sep : Char) : Str → List Str
  | [] => [[]]
  | c :: rest =>
    if c = sep then [] :: splitOnChar sep rest
    else
      match splitOnChar sep rest with
      | [] => [[c]]
      | g :: gs => (c :: g) :: gs

/-- Whether `pat` occurs at the head of `s`. -/
def leadsWith : Str → Str → Bool
  | [], _ => true
  | _ :: _, [] => false
  | p :: ps, c :: cs => p == c && leadsWith ps cs

/-- Python substring containment `pat in s`. -/
def isSubstring (pat : Str) : Str → Bool
  | [] => leadsWith pat []
  | c :: rest => leadsWith pat (c :: rest) || isSubstring pat rest

/-- Decimal rendering of a natural number (Python `str(n)` / `f"{n}"`). -/
def natToStr (n : Nat) : Str := Nat.toDigits 10 n

/-- Two-digit zero-padded rendering (strftime `%d`, `%H`, `%M`). -/
def pad2 (n : Nat) : Str := if n < 10 then '0' :: natToStr n else natToStr n

/-- Full English month name (strftime `%B`). -/
def monthName : Nat → Str
  | 1 => "January".data
  | 2 => "February".data
  | 3 => "March".data
  | 4 => "April".data
  | 5 => "May".data
  | 6 => "June".data
  | 7 => "July".data
  | 8 => "August".data
  | 9 => "September".data
  | 10 => "October".data
  | 11 => "November".data
  | 12 => "December".data
  | _ => []

/-- ASCII decimal digit test (the model of `int(str)` is restricted to ASCII
digits; unicode digit characters are out of scope). -/
def isDigitChar (c : Char) : Bool := '0' ≤ c && c ≤ '9'

/-- Digit value of an ASCII digit. -/
def digitVal (c : Char) : Nat := c.toNat - 48

/-- Continuation of the digit parser: the previous character was a digit, a
single underscore may separate digit groups (Python 3 `int` grammar). -/
def parseDigitsAux : Str → Nat → Option Nat
  | [], acc => some acc
  | '_' :: c :: rest, acc =>
    if isDigitChar c then parseDigitsAux rest (acc * 10 + digitVal c) else none
  | ['_'], _ => none
  | c :: rest, acc =>
    if isDigitChar c then parseDigitsAux rest (acc * 10 + digitVal c) else none

/-- Unsigned digit string: nonempty, starts with a digit. -/
def parseDigitsU : Str → Option Nat
  | [] => none
  | c :: rest => if isDigitChar c then parseDigitsAux rest (digitVal c) else none

/-- Python `int(s)`: optional surrounding whitespace, optional sign, decimal
digits with optional single underscores between digit groups; `none` models
the `ValueError` raise. -/
def pyParseInt (s : Str) : Option Int :=
  match pyStrip s with
  | [] => none
  | c :: rest =>
    if c = '+' then (parseDigitsU rest).map (fun n => (n : Int))
    else if c = '-' then (parseDigitsU rest).map (fun n => -(n : Int))
    else (parseDigitsU (c :: rest)).map (fun n => (n : Int))

/-- Proleptic-Gregorian civil date from days since 1970-01-01 (the standard
era-based algorithm; models CPython's `datetime` date computation). -/
def civilFromDays (z0 : Int) : Int × Nat × Nat :=
  let z : Int := z0 + 719468
  let era : Int := Int.fdiv z 146097
  let doe : Nat := (z - era * 146097).toNat
  let yoe : Nat := (doe - doe / 1460 + doe / 36524 - doe / 146096) / 365
  let y : Int := (yoe : Int) + era * 400
  let doy : Nat := doe - (365 * yoe + yoe / 4 - yoe / 100)
  let mp : Nat := (5 * doy + 2) / 153
  let d : Nat := doy - (153 * mp + 2) / 5 + 1
  let m : Nat := if mp < 10 then mp + 3 else mp - 9
  (y + (if m ≤ 2 then 1 else 0), m, d)

/-- A UTC datetime as produced by `datetime.fromtimestamp(ts, tz=timezone.utc)`. -/
structure PyDateTime where
  year : Int
  month : Nat
  day : Nat
  hour : Nat
  minute : Nat
  second : Nat
deriving DecidableEq

/-- `datetime.fromtimestamp(ts, tz=timezone.utc)`; `none` models the raise for
timestamps whose year falls outside `datetime.MINYEAR..MAXYEAR` (1..9999). -/
def pyFromTimestampUTC (ts : Int) : Option PyDateTime :=
  let days : Int := Int.fdiv ts 86400
  let secs : Nat := (Int.fmod ts 86400).toNat
  let c := civilFromDays days
  if c.1 < 1 ∨ 9999 < c.1 then none
  else some ⟨c.1, c.2.1, c.2.2, secs / 3600, secs % 3600 / 60, secs % 60⟩

/-- `dt.strftime("%B %d, %Y at %H:%M UTC")` (line 103 of the source). -/
def pyStrftimeBdYHM (dt : PyDateTime) : Str :=
  monthName dt.month ++ " ".data ++ pad2 dt.day ++ ", ".data ++
    natToStr dt.year.toNat ++ " at ".data ++ pad2 dt.hour ++ ":".data ++
    pad2 dt.minute ++ " UTC".data

/-- The usage-limit marker scanned for at lines 93 and 730. -/
def usageLimitMarker : Str := "Claude AI usage limit reached|".data

/-- The fixed fallback message returned when parsing the timestamp fails
(line 108). -/
def usageLimitFallback : Str :=
  "🚫 **Claude AI Usage Limit Reached**\n⏰ Please try again later".data

/-- Header of the successfully formatted reset message (line 105). -/
def usageLimitResetsHeader : Str :=
  "🚫 **Claude AI Usage Limit Reached**\n⏰ Limit resets on ".data

/-- `format_usage_limit_message` (lines 91-109).  `message.split("|")[1]` is
the field between the first and the second bar; a missing field models the
caught `IndexError`, a failed `pyParseInt` the caught `ValueError` of `int`,
and a `none` from `pyFromTimestampUTC` the caught `ValueError`/`OSError` of
`datetime.fromtimestamp`.  All three produce the fallback (lines 106-108). -/
def format_usage_limit_message (message : Str) : Str :=
  if isSubstring usageLimitMarker message then
    match (splitOnChar '|' message).get? 1 with
    | none => usageLimitFallback
    | some tsStr =>
      match pyParseInt tsStr with
      | none => usageLimitFallback
      | some ts =>
        match pyFromTimestampUTC ts with
        | none => usageLimitFallback
        | some dt => usageLimitResetsHeader ++ pyStrftimeBdYHM dt
  else message

/-! ### The text chunker `split_text` (lines 223-283)

The source function recurses (lines 244 and 248) only on elements of
`text.split('\n')`, which never contain a newline; on newline-free input the
recursion immediately falls through to the word stage.  The embedding
therefore factors the word stage into `splitLong` and replaces the recursive
calls by `splitLineRec`; the lemma `split_text_no_newline` below proves this
replacement exact. -/

/-- Word loop of `split_text` (lines 255-280).  Python computes the test text
as `current + word + " " if current else word + " "`; both arms equal
`current ++ word ++ ' '` because `current` is empty in the second. -/
def wordLoop (m : Nat) : List Str → Str → List Str → List Str
  | [], current, chunks =>
      if current.isEmpty then chunks else chunks ++ [rstrip current]
  | w :: rest, current, chunks =>
      if (current ++ w ++ [' ']).length ≤ m then
        wordLoop m rest (current ++ w ++ [' ']) chunks
      else if current.isEmpty then
        wordLoop m rest current (chunks ++ [w.take (m - 3) ++ "...".data])
      else if m < (w ++ [' ']).length then
        wordLoop m rest [] (chunks ++ [rstrip current] ++ [w.take (m - 3) ++ "...".data])
      else
        wordLoop m rest (w ++ [' ']) (chunks ++ [rstrip current])

/-- `split_text` on text containing no newline and longer than `m`: the word
stage (lines 255-280) or, when the text is a single word, hard truncation
with an ellipsis (line 283). -/
def splitLong (text : Str) (m : Nat) : List Str :=
  if 1 < (splitOnChar ' ' text).length then wordLoop m (splitOnChar ' ' text) [] []
  else [text.take (m - 3) ++ "...".data]

/-- The recursive calls `split_text(line, max_len)` of lines 244 and 248,
specialised to their argument `line`, an element of `text.split('\n')`:
if the line fits it is a single chunk (line 225), otherwise the word stage
applies.  `split_text_no_newline` proves this equals `split_text` there. -/
def splitLineRec (line : Str) (m : Nat) : List Str :=
  if line.length ≤ m then [line] else splitLong line m

/-- Line loop of `split_text` (lines 231-253); the conditional building
`test_line` collapses as in `wordLoop`. -/
def lineLoop (m : Nat) : List Str → Str → List Str → List Str
  | [], current, chunks =>
      if current.isEmpty then chunks else chunks ++ [rstrip current]
  | line :: rest, current, chunks =>
      if (current ++ line ++ ['\n']).length ≤ m then
        lineLoop m rest (current ++ line ++ ['\n']) chunks
      else if current.isEmpty then
        lineLoop m rest current (chunks ++ splitLineRec line m)
      else if m < (line ++ ['\n']).length then
        lineLoop m rest [] (chunks ++ [rstrip current] ++ splitLineRec line m)
      else
        lineLoop m rest (line ++ ['\n']) (chunks ++ [rstrip current])

/-- `split_text(text, max_len)` (lines 223-283). -/
def split_text (text : Str) (max_len : Nat) : List Str :=
  if text.length ≤ max_len then [text]
  else if 1 < (splitOnChar '\n' text).length then
    lineLoop max_len (splitOnChar '\n' text) [] []
  else splitLong text max_len

/-! ### Todo formatting (lines 147-176) -/

/-- One todo item; the dict accesses `t.get('status')`, `t.get('priority')`,
`t.get('content', 'Unknown task')` are modelled as total fields. -/
structure Todo where
  status : Str
  priority : Str
  content : Str
deriving DecidableEq

/-- Priority emoji of lines 162 and 168. -/
def priorityEmoji (t : Todo) : Str :=
  if t.priority == "high".data then "🔴".data
  else if t.priority == "medium".data then "🟡".data
  else "🟢".data

/-- One formatted in-progress or pending line (lines 163 and 169). -/
def todoLine (t : Todo) : Str :=
  "  ".data ++ priorityEmoji t ++ " ".data ++ t.content ++ "\n".data

/-- One formatted completed line (line 174). -/
def todoDoneLine (t : Todo) : Str :=
  "  ✓ ".data ++ t.content ++ "\n".data

/-- A section of the todo list: header plus per-item lines, empty when the
group is empty (lines 159-174). -/
def todoSection (title : Str) (items : List Todo) (line : Todo → Str) : Str :=
  if items.isEmpty then [] else title ++ (items.map line).flatten

/-- `format_todos_list` (lines 147-176). -/
def format_todos_list (todos : List Todo) : Str :=
  if todos.isEmpty then "📋 **Todo List:** Empty".data
  else
    pyStrip
      ("📋 **Todo List:**\n".data ++
        todoSection "\n🔄 **In Progress:**\n".data
          (todos.filter (fun t => t.status == "in_progress".data)) todoLine ++
        todoSection "\n⏳ **Pending:**\n".data
          (todos.filter (fun t => t.status == "pending".data)) todoLine ++
        todoSection "\n✅ **Completed:**\n".data
          (todos.filter (fun t => t.status == "completed".data)) todoDoneLine)

/-! ### Tool-use formatting (lines 516-596) -/

/-- Last element of a nonempty list of fields (Python `parts[-1]`). -/
def lastD (l : List Str) (dflt : Str) : Str :=
  match l with
  | [] => dflt
  | [x] => x
  | _ :: y :: rest => lastD (y :: rest) dflt

/-- A tool-use input dict, one variant per arm of the preview dispatch of
lines 537-584 that this model covers: `Bash` with a `command` key, `Read`
with a `file_path` key, `TodoRead`/`TodoWrite`, a dict with a `path` key,
and the generic first-two-pairs fallback (string values).  The `Write`,
`Edit`, `Task` and `MultiEdit` arms are omitted; no claim concerns them. -/
inductive ToolInput
  | bash (command : Str)
  | readFile (file_path : Str)
  | todoRead
  | todoWrite (todos : List Todo)
  | pathArg (name : Str) (path : Str)
  | generic (name : Str) (kvs : List (Str × Str))
deriving DecidableEq

/-- The tool name carried by the `tool_use` block (line 522). -/
def toolName : ToolInput → Str
  | .bash _ => "Bash".data
  | .readFile _ => "Read".data
  | .todoRead => "TodoRead".data
  | .todoWrite _ => "TodoWrite".data
  | .pathArg name _ => name
  | .generic name _ => name

/-- One generic key/value preview item (lines 573-583): values longer than 50
characters are truncated with an ellipsis. -/
def kvPreview (kv : Str × Str) : Str :=
  if 50 < kv.2.length then kv.1 ++ ": `".data ++ kv.2.take 50 ++ "...`".data
  else kv.1 ++ ": `".data ++ kv.2 ++ "`".data

/-- Join with a separator (Python `", ".join(items)`). -/
def joinSep (sep : Str) : List Str → Str
  | [] => []
  | [x] => x
  | x :: y :: rest => x ++ sep ++ joinSep sep (y :: rest)

/-- `input_preview` (lines 534-584) for the covered variants. -/
def inputPreview : ToolInput → Str
  | .bash command => "Command: `".data ++ command.take 100 ++ "`".data
  | .readFile file_path =>
      "📄 `".data ++ lastD (splitOnChar '/' file_path) [] ++ "`".data
  | .todoRead => "📋 Reading todo list".data
  | .todoWrite todos =>
      "📋 Updating todo list (".data ++ natToStr todos.length ++ " items)".data
  | .pathArg _ path => "Path: `".data ++ path ++ "`".data
  | .generic _ kvs => joinSep ", ".data ((kvs.take 2).map kvPreview)

/-- The tool notice text (lines 586-592). -/
def toolUseMessage (input : ToolInput) : Str :=
  if toolName input == "Read".data then
    "🔧 **Reading:** ".data ++ inputPreview input
  else if (inputPreview input).isEmpty then
    "🔧 **Tool Use:** ".data ++ toolName input
  else
    "🔧 **Tool Use:** ".data ++ toolName input ++ "\n   ".data ++ inputPreview input

/-! ### The streaming reader state machine (`read_stdout`, lines 366-796) -/

/-- The `ActivityTimeout` class (lines 292-311); times in whole seconds. -/
structure ActivityTimeout where
  base_timeout : Nat
  last_activity : Nat
  start_time : Nat
deriving DecidableEq

/-- `ActivityTimeout.reset` (lines 299-301). -/
def ActivityTimeout.reset (a : ActivityTimeout) (now : Nat) : ActivityTimeout :=
  { a with last_activity := now }

/-- `ActivityTimeout.time_remaining` (lines 303-307); truncated natural
subtraction supplies Python's `max(0, ...)`. -/
def ActivityTimeout.time_remaining (a : ActivityTimeout) (now : Nat) : Nat :=
  a.base_timeout - (now - a.last_activity)

/-- `ActivityTimeout.is_expired` (lines 309-311). -/
def ActivityTimeout.is_expired (a : ActivityTimeout) (now : Nat) : Bool :=
  a.time_remaining now = 0

/-- A content block of an `assistant` event (lines 457-596); unrecognized
block types fall through every `elif` and do nothing. -/
inductive Block
  | text (t : Str)
  | thinking (t : Str)
  | toolUse (input : ToolInput)
  | other
deriving DecidableEq

/-- A decoded line of child stdout, the event vocabulary this model covers:
`assistant` messages (lines 455-596), `user` messages whose `content` is a
plain string (lines 686-691), `result` messages (lines 723-755), other
recognized-but-unmodelled or unknown `type` values (skipped), and non-JSON
lines (lines 757-761, logged only).  `user` messages with structured content
and `system` messages are outside this vocabulary; they only issue
`ctx.send` calls and dead-store the local `last_activity_time`, and touch
none of the state fields below. -/
inductive Event
  | assistant (blocks : List Block)
  | userStr (content : Str)
  | result (num_turns : Nat) (is_error : Bool) (result_content : Str)
  | otherType
  | nonJson (line : Str)
deriving DecidableEq

/-- A delivered unit on the chat transport: a direct `ctx.send`, or a
`send_long_message` call (which chunks with `split_text` and sends each
chunk; this revision of the reader never edits a message in place). -/
inductive Delivery
  | send (text : Str)
  | sendLong (text : Str)
deriving DecidableEq

/-- The mutable locals of `read_stdout` (lines 368-374) plus the
`ActivityTimeout` object and a termination flag for the early `return` of
line 736.  `last_activity_time_local` is the local variable assigned with a
"Reset timeout" comment on many paths (e.g. lines 483, 491, 495, 514, 596,
691, 721, 734, 747, 754): it is written but never read — a dead store —
and in particular is distinct from `activity.last_activity`.
`accumulated_text` (line 369) is initialized empty and never assigned
again.  `response_parts` is the enclosing accumulator of line 360. -/
structure ReaderState where
  last_send_time : Nat
  accumulated_text : Str
  current_assistant_message : Str
  sent_text_length : Nat
  last_discord_message : Option Unit
  tools_used_after_text : Bool
  response_parts : List Str
  activity : ActivityTimeout
  last_activity_time_local : Option Nat
  terminated : Bool
deriving DecidableEq

/-- Initial reader state (lines 364-374): the timeout object is created with
base 300 seconds and `last_send_time` starts at the current time. -/
def initReader (startTime : Nat) : ReaderState :=
  { last_send_time := startTime
    accumulated_text := []
    current_assistant_message := []
    sent_text_length := 0
    last_discord_message := none
    tools_used_after_text := false
    response_parts := []
    activity := { base_timeout := 300, last_activity := startTime, start_time := startTime }
    last_activity_time_local := none
    terminated := false }

/-- Ambient inputs of one processing step: the event-loop clock value and
whether `send_long_message` raises `discord.errors.HTTPException`. -/
structure StepOracle where
  now : Nat
  sendFails : Bool
deriving DecidableEq

/-- Appending newly decoded assistant text (lines 461-462). -/
def appendText (s : ReaderState) (t : Str) : ReaderState :=
  { s with current_assistant_message := s.current_assistant_message ++ t
           response_parts := s.response_parts ++ [t] }

/-- `message_to_send` of lines 472-474: first 2000 characters, the last three
replaced by an ellipsis when the message overflows. -/
def messageToSend (msg : Str) : Str :=
  if 2000 < msg.length then
    (msg.take 2000).take ((msg.take 2000).length - 3) ++ "...".data
  else msg.take 2000

/-- A `text` content block (lines 458-500).  Branches, in source order:
empty text does nothing (line 460); if the throttle condition of lines
469-470 fails, the text is only accumulated; if the unsent slice is
whitespace-only, no send happens and only `last_send_time` advances
(line 500); otherwise `send_long_message` delivers the unsent slice — its
result, `None`, is stored into `last_discord_message` (line 480, the
function has no return statement) — or, when it raises, the `except` arm of
lines 484-496 sends via `ctx.send` (whose `discord.Message` result is a
truthy handle, modelled `some ()`). -/
def processTextBlock (s : ReaderState) (o : StepOracle) (t : Str) :
    ReaderState × List Delivery :=
  if t.isEmpty then (s, [])
  else if ¬ ((1 ≤ o.now - s.last_send_time) ∨
      ((s.current_assistant_message ++ t).length % 500 < t.length)) then
    (appendText s t, [])
  else if (pyStrip ((s.current_assistant_message ++ t).drop s.sent_text_length)).isEmpty then
    ({ appendText s t with last_send_time := o.now }, [])
  else if ¬ o.sendFails then
    ({ appendText s t with
        last_discord_message := none
        sent_text_length := (s.current_assistant_message ++ t).length
        tools_used_after_text := false
        last_activity_time_local := some o.now
        last_send_time := o.now },
     [Delivery.sendLong ((s.current_assistant_message ++ t).drop s.sent_text_length)])
  else if s.tools_used_after_text then
    ({ appendText s t with
        last_discord_message := some ()
        sent_text_length := (s.current_assistant_message ++ t).length
        tools_used_after_text := false
        last_activity_time_local := some o.now
        last_send_time := o.now },
     [Delivery.send (((s.current_assistant_message ++ t).drop s.sent_text_length).take 2000)])
  else
    ({ appendText s t with
        last_discord_message := some ()
        sent_text_length := (s.current_assistant_message ++ t).length
        tools_used_after_text := false
        last_activity_time_local := some o.now
        last_send_time := o.now },
     [Delivery.send (messageToSend (s.current_assistant_message ++ t))])

/-- A `thinking` content block (lines 502-514): deliver a labeled block,
truncated to 1800 characters; only the dead local is assigned. -/
def processThinkingBlock (s : ReaderState) (o : StepOracle) (t : Str) :
    ReaderState × List Delivery :=
  if t.isEmpty then (s, [])
  else
    ({ s with last_activity_time_local := some o.now },
     [Delivery.send ("💭 **Claude\x27s Thinking:**\n```\n".data ++
        (if 1800 < t.length then t.take 1800 ++ "...".data else t) ++
        "\n```".data)])

/-- A `tool_use` content block (lines 516-596): the flag
`tools_used_after_text` is set only when `last_discord_message` is truthy
(lines 517-519); for `TodoWrite` with a nonempty todo list the formatted
list is sent first and `activity_timeout.reset()` is called (lines 560-564,
the only per-event real reset); finally the tool notice is sent and the
dead local assigned (lines 594-596). -/
def processToolUseBlock (s : ReaderState) (o : StepOracle) (input : ToolInput) :
    ReaderState × List Delivery :=
  let s1 := if s.last_discord_message.isSome then
      { s with tools_used_after_text := true } else s
  match input with
  | .todoWrite todos =>
    if todos.isEmpty then
      ({ s1 with last_activity_time_local := some o.now },
       [Delivery.send (toolUseMessage input)])
    else
      ({ s1 with activity := s1.activity.reset o.now
                 last_activity_time_local := some o.now },
       [Delivery.send (format_todos_list todos),
        Delivery.send (toolUseMessage input)])
  | _ =>
    ({ s1 with last_activity_time_local := some o.now },
     [Delivery.send (toolUseMessage input)])

/-- Dispatch over one content block (lines 457-596). -/
def processBlock (s : ReaderState) (o : StepOracle) : Block → ReaderState × List Delivery
  | .text t => processTextBlock s o t
  | .thinking t => processThinkingBlock s o t
  | .toolUse input => processToolUseBlock s o input
  | .other => (s, [])

/-- The `for block in data["message"]["content"]` loop (line 457). -/
def processBlocks (s : ReaderState) (o : StepOracle) :
    List Block → ReaderState × List Delivery
  | [] => (s, [])
  | b :: rest =>
    ((processBlocks (processBlock s o b).1 o rest).1,
     (processBlock s o b).2 ++ (processBlocks (processBlock s o b).1 o rest).2)

/-- The completion notice of line 751. -/
def completionNotice (n : Nat) : Str :=
  "✨ *Conversation completed (".data ++ natToStr n ++ " turns)*".data

/-- A `result` event (lines 723-755): a usage-limit error sends the formatted
message and returns from `read_stdout` (line 736, modelled by `terminated`);
otherwise any undelivered remainder is flushed (lines 738-749) and the
completion notice is sent (lines 751-754). -/
def processResult (s : ReaderState) (o : StepOracle) (num_turns : Nat)
    (is_error : Bool) (result_content : Str) : ReaderState × List Delivery :=
  if is_error && isSubstring usageLimitMarker result_content then
    ({ s with last_activity_time_local := some o.now, terminated := true },
     [Delivery.send (format_usage_limit_message result_content)])
  else if (¬ s.current_assistant_message.isEmpty) ∧
      s.sent_text_length < s.current_assistant_message.length ∧
      ¬ (pyStrip (s.current_assistant_message.drop s.sent_text_length)).isEmpty then
    ({ s with sent_text_length := s.current_assistant_message.length
              last_activity_time_local := some o.now },
     [Delivery.sendLong (s.current_assistant_message.drop s.sent_text_length),
      Delivery.send (completionNotice num_turns)])
  else
    ({ s with last_activity_time_local := some o.now },
     [Delivery.send (completionNotice num_turns)])

/-- Processing of one decoded line (lines 451-761).  After the `return` of
line 736 no further line of the stream is processed. -/
def stepEvent (s : ReaderState) (o : StepOracle) (e : Event) :
    ReaderState × List Delivery :=
  if s.terminated then (s, [])
  else
    match e with
    | .assistant blocks => processBlocks s o blocks
    | .userStr content =>
        ({ s with last_activity_time_local := some o.now },
         [Delivery.send ("**User:** ".data ++ content)])
    | .result n err content => processResult s o n err content
    | .otherType => (s, [])
    | .nonJson _ => (s, [])

/-- The event stream folded through `stepEvent`, collecting deliveries. -/
def runEvents (s : ReaderState) : List (StepOracle × Event) → ReaderState × List Delivery
  | [] => (s, [])
  | (o, e) :: rest =>
    ((runEvents (stepEvent s o e).1 rest).1,
     (stepEvent s o e).2 ++ (runEvents (stepEvent s o e).1 rest).2)

/-- The stream-end handler of lines 393-428 (empty chunk with the process
terminated): the remaining undelivered text is flushed.  The first branch
(lines 398-404) is the one place besides `TodoWrite` that calls
`activity_timeout.reset()`; every other branch assigns the dead local. -/
def finishStream (s : ReaderState) (o : StepOracle) : ReaderState × List Delivery :=
  if ¬ s.current_assistant_message.isEmpty then
    if s.last_discord_message.isSome ∧ s.tools_used_after_text = false then
      if ¬ (pyStrip (s.current_assistant_message.drop s.sent_text_length)).isEmpty then
        ({ s with sent_text_length := s.current_assistant_message.length
                  activity := s.activity.reset o.now },
         [Delivery.sendLong (s.current_assistant_message.drop s.sent_text_length)])
      else (s, [])
    else if s.tools_used_after_text = true ∧
        s.sent_text_length < s.current_assistant_message.length then
      if ¬ (pyStrip (s.current_assistant_message.drop s.sent_text_length)).isEmpty then
        ({ s with sent_text_length := s.current_assistant_message.length
                  last_activity_time_local := some o.now },
         [Delivery.sendLong (s.current_assistant_message.drop s.sent_text_length)])
      else (s, [])
    else if s.tools_used_after_text = false ∧ s.sent_text_length = 0 then
      ({ s with sent_text_length := s.current_assistant_message.length
                last_activity_time_local := some o.now },
       [Delivery.sendLong s.current_assistant_message])
    else if s.tools_used_after_text = false ∧
        s.sent_text_length < s.current_assistant_message.length then
      if ¬ (pyStrip (s.current_assistant_message.drop s.sent_text_length)).isEmpty then
        ({ s with sent_text_length := s.current_assistant_message.length
                  last_activity_time_local := some o.now },
         [Delivery.sendLong (s.current_assistant_message.drop s.sent_text_length)])
      else (s, [])
    else (s, [])
  else if ¬ s.accumulated_text.isEmpty then
    ({ s with last_activity_time_local := some o.now },
     [Delivery.sendLong s.accumulated_text])
  else (s, [])

/-- The watermark invariant of the reader: the delivered-text watermark never
exceeds the accumulated assistant text. -/
def ReaderInv (s : ReaderState) : Prop :=
  s.sent_text_length ≤ s.current_assistant_message.length

/-- One step may only advance the watermark, and preserves the invariant. -/
def wmOk (s r : ReaderState) : Prop :=
  s.sent_text_length ≤ s.current_assistant_message.length →
    s.sent_text_length ≤ r.sent_text_length ∧
      r.sent_text_length ≤ r.current_assistant_message.length

/-! ### Process registration and cancellation (module globals, lines 87-89) -/

/-- A child process handle: `returncode` is `none` while running. -/
structure ProcHandle where
  pid : Nat
  returncode : Option Int
deriving DecidableEq

/-- The module-global registration slot (`current_claude_process`,
`current_claude_channel`, lines 87-89); channels by id. -/
structure RelayState where
  current_claude_process : Option ProcHandle
  current_claude_channel : Option Nat
deriving DecidableEq

/-- Outcome of `call_claude_enhanced`'s spawn block. -/
inductive StartOutcome
  | started
  | spawnFailed
deriving DecidableEq

/-- The spawn-and-register block of `call_claude_enhanced` (lines 338-351):
on successful spawn the globals are overwritten unconditionally — there is
no check whether a process is already registered; on spawn failure the
globals are left untouched and an error string is returned. -/
def registerSession (st : RelayState) (spawned : Option ProcHandle)
    (channel : Option Nat) : RelayState × StartOutcome :=
  match spawned with
  | some p =>
    ({ current_claude_process := some p, current_claude_channel := channel },
     StartOutcome.started)
  | none => (st, StartOutcome.spawnFailed)

/-- The user-visible reply of the `!stop` command. -/
inductive StopReply
  | nothingRunning
  | alreadyCompleted
  | stopped (forced : Bool) (exit_code : Option Int)
deriving DecidableEq

/-- `stop_claude` (lines 1110-1175).  With no registered process it replies
"No Claude process is currently running." and returns (lines 1115-1117);
with an already-terminated process it replies "Claude process has already
completed.", clears the globals and returns (lines 1121-1125); otherwise it
terminates, waiting up to 10 s before force-killing — whether the grace wait
succeeds and the final exit code are oracle inputs. -/
def stop_claude (st : RelayState) (gracefulWithin10s : Bool)
    (finalCode : Option Int) : RelayState × StopReply :=
  match st.current_claude_process with
  | none => (st, StopReply.nothingRunning)
  | some p =>
    match p.returncode with
    | some _ =>
      ({ current_claude_process := none, current_claude_channel := none },
       StopReply.alreadyCompleted)
    | none =>
      ({ current_claude_process := none, current_claude_channel := none },
       StopReply.stopped (if gracefulWithin10s then false else true) finalCode)

/-! ### Concrete scenario inputs -/

/-- The event sequence of the three-unit scenario: assistant text `"Hello"`,
a `Bash` tool use, assistant text `" world"`; the clock advances so the
1-second throttle fires at both text events, and no send raises. -/
def c2Events : List (StepOracle × Event) :=
  [(⟨5, false⟩, Event.assistant [Block.text ("Hello".data)]),
   (⟨6, false⟩, Event.assistant [Block.toolUse (ToolInput.bash ("ls".data))]),
   (⟨8, false⟩, Event.assistant [Block.text (" world".data)])]

/-- The claim phrase "the text after the first `|`" of the message, as the
specification reads it (everything following the first bar); the source
instead takes `message.split("|")[1]`, the field between the first and
second bar. -/
def textAfterFirstBar : Str → Str
  | [] => []
  | c :: rest => if c = '|' then rest else textAfterFirstBar rest

/-! ### Lemmas about the text utilities -/

/-- Dropping a while-prefix never lengthens a list. -/
lemma length_dropWhile_le (p : Char → Bool) (l : List Char) :
    (l.dropWhile p).length ≤ l.length := by
  induction l with
  | nil => simp [List.dropWhile]
  | cons a t ih =>
    by_cases h : p a
    · simp only [List.dropWhile, h, List.length_cons]
      omega
    · simp [List.dropWhile, h]

/-- `rstrip` never lengthens a string. -/
lemma length_rstrip_le (s : Str) : (rstrip s).length ≤ s.length := by
  have h := length_dropWhile_le pyIsSpace s.reverse
  simpa [rstrip] using h

/-- `splitOnChar` never returns the empty list. -/
lemma splitOnChar_ne_nil (sep : Char) (s : Str) : splitOnChar sep s ≠ [] := by
  induction s with
  | nil => simp [splitOnChar]
  | cons c rest ih =>
    by_cases h : c = sep
    · simp [splitOnChar, h]
    · simp only [splitOnChar, if_neg h]
      cases hrec : splitOnChar sep rest with
      | nil => exact absurd hrec ih
      | cons g gs => simp

/-- Splitting a string that does not contain the separator returns it whole. -/
lemma splitOnChar_of_not_mem {sep : Char} {s : Str} (h : sep ∉ s) :
    splitOnChar sep s = [s] := by
  induction s with
  | nil => simp [splitOnChar]
  | cons c rest ih =>
    have hc : c ≠ sep := fun hc => h (hc ▸ List.mem_cons_self c rest)
    have hrest : sep ∉ rest := fun hm => h (List.mem_cons_of_mem c hm)
    simp [splitOnChar, hc, ih hrest]

/-- Splitting around an explicit separator occurrence. -/
lemma splitOnChar_append_cons (sep : Char) (a b : Str) (ha : sep ∉ a) :
    splitOnChar sep (a ++ sep :: b) = a :: splitOnChar sep b := by
  induction a with
  | nil => simp [splitOnChar]
  | cons x a' ih =>
    have hx : x ≠ sep := fun hx => ha (hx ▸ List.mem_cons_self x a')
    have ha' : sep ∉ a' := fun hm => ha (List.mem_cons_of_mem x hm)
    simp [splitOnChar, hx, ih ha']

/-- Every field returned by `splitOnChar` is separator-free. -/
lemma splitOnChar_sep_not_mem (sep : Char) (s : Str) :
    ∀ l ∈ splitOnChar sep s, sep ∉ l := by
  induction s with
  | nil => intro l hl; simp [splitOnChar] at hl; simp [hl]
  | cons c rest ih =>
    intro l hl
    by_cases h : c = sep
    · simp only [splitOnChar, if_pos h] at hl
      rcases List.mem_cons.mp hl with hl | hl
      · simp [hl]
      · exact ih l hl
    · simp only [splitOnChar, if_neg h] at hl
      cases hrec : splitOnChar sep rest with
      | nil => exact absurd hrec (splitOnChar_ne_nil sep rest)
      | cons g gs =>
        rw [hrec] at hl
        rcases List.mem_cons.mp hl with hl | hl
        · subst hl
          intro hmem
          rcases List.mem_cons.mp hmem with hh | hh
          · exact h hh.symm
          · exact ih g (hrec ▸ List.mem_cons_self g gs) hh
        · exact ih l (hrec ▸ List.mem_cons_of_mem g hl)

/-- On newline-free input `split_text` is exactly `splitLineRec`, which is why
substituting `splitLineRec` for the source's recursive calls (always applied
to elements of `text.split('\n')`) is faithful. -/
lemma split_text_no_newline (line : Str) (m : Nat) (h : '\n' ∉ line) :
    split_text line m = splitLineRec line m := by
  unfold split_text splitLineRec
  by_cases hle : line.length ≤ m
  · simp [hle]
  · simp [hle, splitOnChar_of_not_mem h]

/-! ### The chunker bound (claim C6) -/

/-- Length of the ellipsis marker. -/
lemma dots_length : ("...".data).length = 3 := rfl

/-- A hard-truncated word fits within the limit. -/
lemma trunc_le (w : Str) (m : Nat) (h3 : 3 ≤ m) :
    (w.take (m - 3) ++ "...".data).length ≤ m := by
  have ht : (w.take (m - 3)).length ≤ m - 3 := List.length_take_le _ _
  simp only [List.length_append, String.data]
  simp only [List.length_cons, List.length_nil]
  omega

/-- Every chunk produced by the word loop fits, given the running invariants. -/
lemma wordLoop_le (m : Nat) (h3 : 3 ≤ m) :
    ∀ (words : List Str) (current : Str) (chunks : List Str),
      current.length ≤ m → (∀ c ∈ chunks, c.length ≤ m) →
      ∀ c ∈ wordLoop m words current chunks, c.length ≤ m := by
  intro words
  induction words with
  | nil =>
    intro current chunks hcur hch c hc
    unfold wordLoop at hc
    by_cases he : current.isEmpty
    · rw [if_pos he] at hc; exact hch c hc
    · rw [if_neg he] at hc
      rcases List.mem_append.mp hc with h | h
      · exact hch c h
      · have : c = rstrip current := by simpa using h
        subst this
        exact le_trans (length_rstrip_le current) hcur
  | cons w rest ih =>
    intro current chunks hcur hch c hc
    unfold wordLoop at hc
    by_cases h1 : (current ++ w ++ [' ']).length ≤ m
    · rw [if_pos h1] at hc
      exact ih _ _ h1 hch c hc
    · rw [if_neg h1] at hc
      by_cases h2 : current.isEmpty
      · rw [if_pos h2] at hc
        refine ih _ _ hcur ?_ c hc
        intro d hd
        rcases List.mem_append.mp hd with h | h
        · exact hch d h
        · have : d = w.take (m - 3) ++ "...".data := by simpa using h
          subst this; exact trunc_le w m h3
      · rw [if_neg h2] at hc
        by_cases h4 : m < (w ++ [' ']).length
        · rw [if_pos h4] at hc
          refine ih _ _ (by simp) ?_ c hc
          intro d hd
          rcases List.mem_append.mp hd with hd | hd
          · rcases List.mem_append.mp hd with hd | hd
            · exact hch d hd
            · have : d = rstrip current := by simpa using hd
              subst this; exact le_trans (length_rstrip_le current) hcur
          · have : d = w.take (m - 3) ++ "...".data := by simpa using hd
            subst this; exact trunc_le w m h3
        · rw [if_neg h4] at hc
          refine ih _ _ (by omega) ?_ c hc
          intro d hd
          rcases List.mem_append.mp hd with hd | hd
          · exact hch d hd
          · have : d = rstrip current := by simpa using hd
            subst this; exact le_trans (length_rstrip_le current) hcur

/-- Every chunk produced by `splitLong` fits. -/
lemma splitLong_le (text : Str) (m : Nat) (h3 : 3 ≤ m) :
    ∀ c ∈ splitLong text m, c.length ≤ m := by
  intro c hc
  unfold splitLong at hc
  by_cases h : 1 < (splitOnChar ' ' text).length
  · rw [if_pos h] at hc
    exact wordLoop_le m h3 _ [] [] (by simp) (by simp) c hc
  · rw [if_neg h] at hc
    have : c = text.take (m - 3) ++ "...".data := by simpa using hc
    subst this; exact trunc_le text m h3

/-- Every chunk produced by `splitLineRec` fits. -/
lemma splitLineRec_le (line : Str) (m : Nat) (h3 : 3 ≤ m) :
    ∀ c ∈ splitLineRec line m, c.length ≤ m := by
  intro c hc
  unfold splitLineRec at hc
  by_cases h : line.length ≤ m
  · rw [if_pos h] at hc
    have : c = line := by simpa using hc
    subst this; exact h
  · rw [if_neg h] at hc
    exact splitLong_le line m h3 c hc

/-- Every chunk produced by the line loop fits, given the running invariants. -/
lemma lineLoop_le (m : Nat) (h3 : 3 ≤ m) :
    ∀ (lines : List Str) (current : Str) (chunks : List Str),
      current.length ≤ m → (∀ c ∈ chunks, c.length ≤ m) →
      ∀ c ∈ lineLoop m lines current chunks, c.length ≤ m := by
  intro lines
  induction lines with
  | nil =>
    intro current chunks hcur hch c hc
    unfold lineLoop at hc
    by_cases he : current.isEmpty
    · rw [if_pos he] at hc; exact hch c hc
    · rw [if_neg he] at hc
      rcases List.mem_append.mp hc with h | h
      · exact hch c h
      · have : c = rstrip current := by simpa using h
        subst this
        exact le_trans (length_rstrip_le current) hcur
  | cons line rest ih =>
    intro current chunks hcur hch c hc
    unfold lineLoop at hc
    by_cases h1 : (current ++ line ++ ['\n']).length ≤ m
    · rw [if_pos h1] at hc
      exact ih _ _ h1 hch c hc
    · rw [if_neg h1] at hc
      by_cases h2 : current.isEmpty
      · rw [if_pos h2] at hc
        refine ih _ _ hcur ?_ c hc
        intro d hd
        rcases List.mem_append.mp hd with h | h
        · exact hch d h
        · exact splitLineRec_le line m h3 d h
      · rw [if_neg h2] at hc
        by_cases h4 : m < (line ++ ['\n']).length
        · rw [if_pos h4] at hc
          refine ih _ _ (by simp) ?_ c hc
          intro d hd
          rcases List.mem_append.mp hd with hd | hd
          · rcases List.mem_append.mp hd with hd | hd
            · exact hch d hd
            · have : d = rstrip current := by simpa using hd
              subst this; exact le_trans (length_rstrip_le current) hcur
          · exact splitLineRec_le line m h3 d hd
        · rw [if_neg h4] at hc
          refine ih _ _ (by omega) ?_ c hc
          intro d hd
          rcases List.mem_append.mp hd with hd | hd
          · exact hch d hd
          · have : d = rstrip current := by simpa using hd
            subst this; exact le_trans (length_rstrip_le current) hcur

/-- Evaluation of the chunker on separator-free text longer than the limit:
both the line stage and the word stage see a single field, so the text is
hard-truncated with an ellipsis (line 283). -/
lemma split_text_no_sep (text : Str) (m : Nat) (hlen : m < text.length)
    (hn : '\n' ∉ text) (hsp : ' ' ∉ text) :
    split_text text m = [text.take (m - 3) ++ "...".data] := by
  unfold split_text
  rw [if_neg (by omega), splitOnChar_of_not_mem hn]
  simp only [List.length_singleton]
  rw [if_neg (by omega)]
  unfold splitLong
  rw [splitOnChar_of_not_mem hsp]
  simp

/-- Evaluation of the `"a" * 3000` scenario: a single 3000-character word is
truncated to the first 1997 characters plus the ellipsis. -/
lemma split_text_replicate3000 :
    split_text (List.replicate 3000 'a') 2000 =
      [List.replicate 1997 'a' ++ "...".data] := by
  have hn : '\n' ∉ List.replicate 3000 'a' := by
    intro hm
    have := (List.mem_replicate.mp hm).2
    simp at this
  have hsp : ' ' ∉ List.replicate 3000 'a' := by
    intro hm
    have := (List.mem_replicate.mp hm).2
    simp at this
  rw [split_text_no_sep _ _ (by rw [List.length_replicate]; decide) hn hsp]
  rw [List.take_replicate]
  have hmin : min 1997 3000 = 1997 := by decide
  rw [hmin]

/-- C5, counterexample: splitting `"a" * 3000` with `maxLen = 2000` does not
produce two segments. -/
theorem C5_counterexample : (split_text (List.replicate 3000 'a') 2000).length ≠ 2 := by
  rw [split_text_replicate3000]
  decide

/-- C5 (corrected): splitting the text of 3000 repetitions of `'a'` with
`maxLen = 2000` yields exactly one segment, the first 1997 characters
followed by the three-character ellipsis marker — a segment of length 2000;
the remaining 1003 characters of the input are dropped, so the concatenation
of the output does not equal the original text. -/
theorem C5_single_truncated_segment :
    split_text (List.replicate 3000 'a') 2000 =
        [List.replicate 1997 'a' ++ "...".data] ∧
      (List.replicate 1997 'a' ++ "...".data).length = 2000 ∧
      (split_text (List.replicate 3000 'a') 2000).length = 1 := by
  refine ⟨split_text_replicate3000, ?_, ?_⟩
  · rw [List.length_append, List.length_replicate]
    decide
  · rw [split_text_replicate3000]
    rfl

/-- C6 (confirmed): every segment produced by `split_text` has length at most
`maxLen`, for every input text and every `maxLen > 3`. -/
theorem C6_chunk_bound (text : Str) (max_len : Nat) (chunk : Str)
    (h3 : 3 < max_len) (hmem : chunk ∈ split_text text max_len) :
    chunk.length ≤ max_len := by
  unfold split_text at hmem
  by_cases h1 : text.length ≤ max_len
  · rw [if_pos h1] at hmem
    have : chunk = text := by simpa using hmem
    subst this; exact h1
  · rw [if_neg h1] at hmem
    by_cases h2 : 1 < (splitOnChar '\n' text).length
    · rw [if_pos h2] at hmem
      exact lineLoop_le max_len (by omega) _ [] [] (by simp) (by simp) chunk hmem
    · rw [if_neg h2] at hmem
      exact splitLong_le text max_len (by omega) chunk hmem

/-- C6 witness: a concrete instantiation of the bound. -/
theorem C6_chunk_bound_witness :
    3 < 5 ∧ ("he...".data) ∈ split_text ("hello world".data) 5 ∧
      ("he...".data).length ≤ 5 :=
  ⟨by decide, by decide,
   C6_chunk_bound ("hello world".data) 5 ("he...".data) (by decide) (by decide)⟩

/-- C7, counterexample: `split(join(split(text, maxLen)), maxLen)` differs
from `split(text, maxLen)` at `text == "aaa bbb"`, `maxLen == 4`: the first
split yields `["aaa", "bbb"]`, whose concatenation `"aaabbb"` is a single
word that re-splits to `["a..."]`. -/
theorem C7_counterexample :
    split_text ((split_text ("aaa bbb".data) 4).flatten) 4 ≠
      split_text ("aaa bbb".data) 4 := by decide

/-- C7 (corrected): the chunker is a pure function (deterministic by
construction), and re-splitting any already-valid segment — one whose length
is at most `maxLen` — returns it unchanged as a single segment; but the full
round-trip equation `split(join(split(text, maxLen)), maxLen) =
split(text, maxLen)` does not hold (the separators dropped by the split are
not restored by concatenation, see the counterexample). -/
theorem C7_resplit_identity (s : Str) (max_len : Nat) (h : s.length ≤ max_len) :
    split_text s max_len = [s] := by
  unfold split_text
  rw [if_pos h]

/-- C7 witness: a concrete already-valid segment re-splits to itself. -/
theorem C7_resplit_identity_witness :
    ("ok".data).length ≤ 5 ∧ split_text ("ok".data) 5 = ["ok".data] :=
  ⟨by decide, C7_resplit_identity ("ok".data) 5 (by decide)⟩

/-! ### Substring and usage-limit formatting lemmas -/

/-- A pattern occurs at the head of itself plus anything. -/
lemma leadsWith_append_self (pat rest : Str) : leadsWith pat (pat ++ rest) = true := by
  induction pat with
  | nil => rfl
  | cons p ps ih => simp [leadsWith, ih]

/-- The empty pattern is a substring of everything. -/
lemma isSubstring_nil_pat (s : Str) : isSubstring [] s = true := by
  cases s with
  | nil => rfl
  | cons c rest => simp [isSubstring, leadsWith]

/-- A pattern is a substring of itself plus a suffix. -/
lemma isSubstring_append_self (pat rest : Str) : isSubstring pat (pat ++ rest) = true := by
  cases pat with
  | nil => exact isSubstring_nil_pat rest
  | cons p ps =>
    rw [List.cons_append]
    unfold isSubstring
    rw [← List.cons_append, leadsWith_append_self]
    rfl

/-- The marker decomposes as its bar-free body plus the bar. -/
lemma usageLimitMarker_eq :
    usageLimitMarker = "Claude AI usage limit reached".data ++ ['|'] := by decide

/-- The marker body contains no bar. -/
lemma bar_not_mem_markerBody : '|' ∉ "Claude AI usage limit reached".data := by decide

/-- For a message of the shape marker-plus-timestamp, `message.split("|")[1]`
is exactly the timestamp field. -/
lemma split_marker_field (tsStr : Str) (hbar : '|' ∉ tsStr) :
    (splitOnChar '|' (usageLimitMarker ++ tsStr)).get? 1 = some tsStr := by
  rw [usageLimitMarker_eq, List.append_assoc, List.singleton_append,
    splitOnChar_append_cons _ _ _ bar_not_mem_markerBody,
    splitOnChar_of_not_mem hbar]
  rfl

/-- Formatting a marker-plus-valid-timestamp message renders the reset time. -/
lemma format_usage_limit_parse_ok (tsStr : Str) (ts : Int) (dt : PyDateTime)
    (hbar : '|' ∉ tsStr) (hp : pyParseInt tsStr = some ts)
    (hd : pyFromTimestampUTC ts = some dt) :
    format_usage_limit_message (usageLimitMarker ++ tsStr) =
      usageLimitResetsHeader ++ pyStrftimeBdYHM dt := by
  unfold format_usage_limit_message
  rw [isSubstring_append_self, if_pos rfl, split_marker_field tsStr hbar]
  simp only [hp, hd]

/-- Without the marker the message is returned unchanged (line 109). -/
lemma format_no_marker (msg : Str) (h : isSubstring usageLimitMarker msg = false) :
    format_usage_limit_message msg = msg := by
  unfold format_usage_limit_message
  rw [h]
  simp

/-- With the marker but an unparseable second field, the fallback is
returned (the caught `ValueError` of `int`, lines 106-108). -/
lemma format_field_unparseable (msg tsStr : Str)
    (hm : isSubstring usageLimitMarker msg = true)
    (hs : (splitOnChar '|' msg).get? 1 = some tsStr)
    (hp : pyParseInt tsStr = none) :
    format_usage_limit_message msg = usageLimitFallback := by
  unfold format_usage_limit_message
  rw [hm, if_pos rfl, hs]
  simp only [hp]

/-- With the marker and a parseable second field whose timestamp is out of
the representable datetime range, the fallback is returned. -/
lemma format_range_fail (msg tsStr : Str) (ts : Int)
    (hm : isSubstring usageLimitMarker msg = true)
    (hs : (splitOnChar '|' msg).get? 1 = some tsStr)
    (hp : pyParseInt tsStr = some ts)
    (hd : pyFromTimestampUTC ts = none) :
    format_usage_limit_message msg = usageLimitFallback := by
  unfold format_usage_limit_message
  rw [hm, if_pos rfl, hs]
  simp only [hp, hd]

/-- C10, counterexample: for the input `"Claude AI usage limit reached|123|456"`,
which contains the marker and whose text after the first bar, `"123|456"`, is
not a parseable integer, the function does not return the fallback — it
parses `split("|")[1] == "123"` and renders a reset time. -/
theorem C10_counterexample :
    isSubstring usageLimitMarker ("Claude AI usage limit reached|123|456".data) = true ∧
    pyParseInt (textAfterFirstBar ("Claude AI usage limit reached|123|456".data)) = none ∧
    format_usage_limit_message ("Claude AI usage limit reached|123|456".data) ≠
      usageLimitFallback :=
  ⟨by decide, by decide, by decide⟩

/-- C10 (corrected): `format_usage_limit_message` is total; an input without
the marker is returned unchanged, and an input with the marker whose second
`'|'`-separated field — `message.split("|")[1]`, the text between the first
and second bar, not everything after the first bar — fails integer parsing,
or parses to a timestamp outside the representable datetime range, yields
the fixed fallback message. -/
theorem C10_marker_field_behavior :
    (∀ msg : Str, isSubstring usageLimitMarker msg = false →
        format_usage_limit_message msg = msg) ∧
    (∀ msg tsStr : Str, isSubstring usageLimitMarker msg = true →
        (splitOnChar '|' msg).get? 1 = some tsStr → pyParseInt tsStr = none →
        format_usage_limit_message msg = usageLimitFallback) ∧
    (∀ (msg tsStr : Str) (ts : Int), isSubstring usageLimitMarker msg = true →
        (splitOnChar '|' msg).get? 1 = some tsStr → pyParseInt tsStr = some ts →
        pyFromTimestampUTC ts = none →
        format_usage_limit_message msg = usageLimitFallback) :=
  ⟨format_no_marker, format_field_unparseable, format_range_fail⟩

/-- C10 witness: the three behaviors at concrete inputs. -/
theorem C10_marker_field_behavior_witness :
    format_usage_limit_message ("hello".data) = "hello".data ∧
    format_usage_limit_message ("Claude AI usage limit reached|later".data) =
      usageLimitFallback ∧
    format_usage_limit_message ("Claude AI usage limit reached|99999999999999".data) =
      usageLimitFallback :=
  ⟨C10_marker_field_behavior.1 ("hello".data) (by decide),
   C10_marker_field_behavior.2.1 ("Claude AI usage limit reached|later".data)
     ("later".data) (by decide) (by decide) (by decide),
   C10_marker_field_behavior.2.2 ("Claude AI usage limit reached|99999999999999".data)
     ("99999999999999".data) 99999999999999 (by decide) (by decide) (by decide)
     (by decide)⟩

/-! ### Watermark lemmas (claim C1) -/

/-- `wmOk` is reflexive. -/
lemma wmOk_refl (s : ReaderState) : wmOk s s := fun h => ⟨le_refl _, h⟩

/-- `wmOk` composes. -/
lemma wmOk_trans {s r u : ReaderState} (h1 : wmOk s r) (h2 : wmOk r u) : wmOk s u := by
  intro hs
  obtain ⟨h1a, h1b⟩ := h1 hs
  obtain ⟨h2a, h2b⟩ := h2 h1b
  exact ⟨le_trans h1a h2a, h2b⟩

/-- A `text` block only advances the watermark. -/
lemma processTextBlock_wm (s : ReaderState) (o : StepOracle) (t : Str) :
    wmOk s (processTextBlock s o t).1 := by
  intro h
  unfold processTextBlock
  by_cases h1 : t.isEmpty
  · rw [if_pos h1]
    exact ⟨le_refl _, h⟩
  · rw [if_neg h1]
    by_cases h2 : ¬ ((1 ≤ o.now - s.last_send_time) ∨
        ((s.current_assistant_message ++ t).length % 500 < t.length))
    · rw [if_pos h2]
      refine ⟨le_refl _, ?_⟩
      simp only [appendText, List.length_append]
      omega
    · rw [if_neg h2]
      by_cases h3 : (pyStrip ((s.current_assistant_message ++ t).drop s.sent_text_length)).isEmpty
      · rw [if_pos h3]
        refine ⟨le_refl _, ?_⟩
        simp only [appendText, List.length_append]
        omega
      · rw [if_neg h3]
        by_cases h4 : ¬ o.sendFails
        · rw [if_pos h4]
          refine ⟨?_, ?_⟩ <;> simp only [appendText, List.length_append] <;> omega
        · rw [if_neg h4]
          by_cases h5 : s.tools_used_after_text
          · rw [if_pos h5]
            refine ⟨?_, ?_⟩ <;> simp only [appendText, List.length_append] <;> omega
          · rw [if_neg h5]
            refine ⟨?_, ?_⟩ <;> simp only [appendText, List.length_append] <;> omega

/-- A `thinking` block leaves watermark and text untouched. -/
lemma processThinkingBlock_wm (s : ReaderState) (o : StepOracle) (t : Str) :
    wmOk s (processThinkingBlock s o t).1 := by
  intro h
  unfold processThinkingBlock
  by_cases h1 : t.isEmpty
  · rw [if_pos h1]
    exact ⟨le_refl _, h⟩
  · rw [if_neg h1]
    exact ⟨le_refl _, h⟩

/-- A `tool_use` block leaves watermark and text untouched. -/
lemma processToolUseBlock_wm (s : ReaderState) (o : StepOracle) (input : ToolInput) :
    wmOk s (processToolUseBlock s o input).1 := by
  intro h
  unfold processToolUseBlock
  by_cases hd : s.last_discord_message.isSome <;>
    cases input <;> simp only [hd, if_pos, if_neg, ite_true, ite_false] <;>
      first
        | exact ⟨le_refl _, h⟩
        | (rename_i todos
           by_cases he : todos.isEmpty <;> simp only [he, ite_true, ite_false] <;>
             exact ⟨le_refl _, h⟩)

/-- Any single block only advances the watermark. -/
lemma processBlock_wm (s : ReaderState) (o : StepOracle) (b : Block) :
    wmOk s (processBlock s o b).1 := by
  cases b with
  | text t => exact processTextBlock_wm s o t
  | thinking t => exact processThinkingBlock_wm s o t
  | toolUse input => exact processToolUseBlock_wm s o input
  | other => exact wmOk_refl s

/-- A block list only advances the watermark. -/
lemma processBlocks_wm (s : ReaderState) (o : StepOracle) (bs : List Block) :
    wmOk s (processBlocks s o bs).1 := by
  induction bs generalizing s with
  | nil => exact wmOk_refl s
  | cons b rest ih =>
    exact wmOk_trans (processBlock_wm s o b) (ih (processBlock s o b).1)

/-- A `result` event only advances the watermark. -/
lemma processResult_wm (s : ReaderState) (o : StepOracle) (n : Nat)
    (err : Bool) (content : Str) : wmOk s (processResult s o n err content).1 := by
  intro h
  unfold processResult
  by_cases h1 : err && isSubstring usageLimitMarker content
  · rw [if_pos h1]
    exact ⟨le_refl _, h⟩
  · rw [if_neg h1]
    by_cases h2 : (¬ s.current_assistant_message.isEmpty) ∧
        s.sent_text_length < s.current_assistant_message.length ∧
        ¬ (pyStrip (s.current_assistant_message.drop s.sent_text_length)).isEmpty
    · rw [if_pos h2]
      exact ⟨h, le_refl _⟩
    · rw [if_neg h2]
      exact ⟨le_refl _, h⟩

/-- One event step only advances the watermark. -/
lemma stepEvent_wm (s : ReaderState) (o : StepOracle) (e : Event) :
    wmOk s (stepEvent s o e).1 := by
  unfold stepEvent
  by_cases ht : s.terminated
  · rw [if_pos ht]
    exact wmOk_refl s
  · rw [if_neg ht]
    cases e with
    | assistant blocks => exact processBlocks_wm s o blocks
    | userStr content => exact fun h => ⟨le_refl _, h⟩
    | result n err content => exact processResult_wm s o n err content
    | otherType => exact wmOk_refl s
    | nonJson line => exact wmOk_refl s

/-- A whole event sequence only advances the watermark. -/
lemma runEvents_wm (s : ReaderState) (evs : List (StepOracle × Event)) :
    wmOk s (runEvents s evs).1 := by
  induction evs generalizing s with
  | nil => exact wmOk_refl s
  | cons p rest ih =>
    obtain ⟨o, e⟩ := p
    exact wmOk_trans (stepEvent_wm s o e) (ih (stepEvent s o e).1)

/-- Running an appended event list continues from the intermediate state. -/
lemma runEvents_append_fst (s : ReaderState) (a b : List (StepOracle × Event)) :
    (runEvents s (a ++ b)).1 = (runEvents (runEvents s a).1 b).1 := by
  induction a generalizing s with
  | nil => simp [runEvents]
  | cons p rest ih =>
    obtain ⟨o, e⟩ := p
    simp only [List.cons_append, runEvents]
    exact ih (stepEvent s o e).1

/-- After the usage-limit `return`, no further event is processed. -/
lemma runEvents_terminated (s : ReaderState) (evs : List (StepOracle × Event))
    (h : s.terminated = true) : runEvents s evs = (s, []) := by
  induction evs with
  | nil => rfl
  | cons p rest ih =>
    obtain ⟨o, e⟩ := p
    have hstep : stepEvent s o e = (s, []) := by
      unfold stepEvent
      rw [h]
      simp
    simp only [runEvents, hstep]
    simp [ih]

/-- The stream-end flush only advances the watermark. -/
lemma finishStream_wm (s : ReaderState) (o : StepOracle) :
    wmOk s (finishStream s o).1 := by
  intro h
  unfold finishStream
  by_cases h1 : ¬ s.current_assistant_message.isEmpty
  · rw [if_pos h1]
    by_cases h2 : s.last_discord_message.isSome ∧ s.tools_used_after_text = false
    · rw [if_pos h2]
      by_cases h3 : ¬ (pyStrip (s.current_assistant_message.drop s.sent_text_length)).isEmpty
      · rw [if_pos h3]
        exact ⟨h, le_refl _⟩
      · rw [if_neg h3]
        exact ⟨le_refl _, h⟩
    · rw [if_neg h2]
      by_cases h4 : s.tools_used_after_text = true ∧
          s.sent_text_length < s.current_assistant_message.length
      · rw [if_pos h4]
        by_cases h5 : ¬ (pyStrip (s.current_assistant_message.drop s.sent_text_length)).isEmpty
        · rw [if_pos h5]
          exact ⟨h, le_refl _⟩
        · rw [if_neg h5]
          exact ⟨le_refl _, h⟩
      · rw [if_neg h4]
        by_cases h6 : s.tools_used_after_text = false ∧ s.sent_text_length = 0
        · rw [if_pos h6]
          exact ⟨h, le_refl _⟩
        · rw [if_neg h6]
          by_cases h7 : s.tools_used_after_text = false ∧
              s.sent_text_length < s.current_assistant_message.length
          · rw [if_pos h7]
            by_cases h8 : ¬ (pyStrip (s.current_assistant_message.drop s.sent_text_length)).isEmpty
            · rw [if_pos h8]
              exact ⟨h, le_refl _⟩
            · rw [if_neg h8]
              exact ⟨le_refl _, h⟩
          · rw [if_neg h7]
            exact ⟨le_refl _, h⟩
  · rw [if_neg h1]
    by_cases h9 : ¬ s.accumulated_text.isEmpty
    · rw [if_pos h9]
      exact ⟨le_refl _, h⟩
    · rw [if_neg h9]
      exact ⟨le_refl _, h⟩

/-- C1 (confirmed): throughout one streaming session, for every sequence of
decoded events (and every clock/failure schedule), the delivered-text
watermark `sent_text_length` never exceeds `len(current_assistant_message)`,
it is non-decreasing from any point of the sequence to any later point, and
the same holds through the stream-end flush. -/
theorem C1_watermark_invariant (t0 : Nat) (evs more : List (StepOracle × Event))
    (o : StepOracle) :
    ReaderInv (runEvents (initReader t0) evs).1 ∧
    (runEvents (initReader t0) evs).1.sent_text_length ≤
      (runEvents (initReader t0) (evs ++ more)).1.sent_text_length ∧
    ReaderInv (finishStream (runEvents (initReader t0) evs).1 o).1 ∧
    (runEvents (initReader t0) evs).1.sent_text_length ≤
      (finishStream (runEvents (initReader t0) evs).1 o).1.sent_text_length := by
  have h0 : ReaderInv (initReader t0) := Nat.le_refl 0
  obtain ⟨hmono, hinv⟩ := runEvents_wm (initReader t0) evs h0
  obtain ⟨hmono2, hinv2⟩ := runEvents_wm (runEvents (initReader t0) evs).1 more hinv
  obtain ⟨hmono3, hinv3⟩ := finishStream_wm (runEvents (initReader t0) evs).1 o hinv
  refine ⟨hinv, ?_, hinv3, hmono3⟩
  rw [runEvents_append_fst]
  exact hmono2

/-- C4 (confirmed): a `result` event that is an error and whose content is
the usage-limit marker followed by a valid integer epoch timestamp delivers
exactly one message — the timestamp rendered as a UTC date/time — drives the
reader to its terminated state, and no subsequent event of the stream is
processed. -/
theorem C4_usage_limit_terminal (s : ReaderState) (o : StepOracle) (n : Nat)
    (tsStr : Str) (ts : Int) (dt : PyDateTime) (evs : List (StepOracle × Event))
    (hterm : s.terminated = false) (hbar : '|' ∉ tsStr)
    (hp : pyParseInt tsStr = some ts) (hd : pyFromTimestampUTC ts = some dt) :
    stepEvent s o (Event.result n true (usageLimitMarker ++ tsStr)) =
      ({ s with last_activity_time_local := some o.now, terminated := true },
       [Delivery.send (usageLimitResetsHeader ++ pyStrftimeBdYHM dt)]) ∧
    runEvents { s with last_activity_time_local := some o.now, terminated := true } evs =
      ({ s with last_activity_time_local := some o.now, terminated := true }, []) := by
  have hfmt := format_usage_limit_parse_ok tsStr ts dt hbar hp hd
  constructor
  · unfold stepEvent
    rw [hterm]
    simp only [Bool.false_eq_true, if_false]
    unfold processResult
    rw [isSubstring_append_self]
    simp only [Bool.and_true, hfmt, if_true]
  · exact runEvents_terminated _ _ rfl

/-- C4 witness: a concrete usage-limit result event, timestamp 1750017600
(June 15, 2025 20:00 UTC), followed by a further event that is ignored. -/
theorem C4_usage_limit_terminal_witness :
    stepEvent (initReader 0) ⟨7, false⟩
        (Event.result 2 true (usageLimitMarker ++ "1750017600".data)) =
      ({ initReader 0 with last_activity_time_local := some 7, terminated := true },
       [Delivery.send (usageLimitResetsHeader ++
          pyStrftimeBdYHM ⟨2025, 6, 15, 20, 0, 0⟩)]) ∧
    runEvents { initReader 0 with last_activity_time_local := some 7, terminated := true }
        [(⟨8, false⟩, Event.userStr ("hi".data))] =
      ({ initReader 0 with last_activity_time_local := some 7, terminated := true }, []) :=
  C4_usage_limit_terminal (initReader 0) ⟨7, false⟩ 2 ("1750017600".data) 1750017600
    ⟨2025, 6, 15, 20, 0, 0⟩ [(⟨8, false⟩, Event.userStr ("hi".data))]
    (by decide) (by decide) (by decide) (by decide)

/-- C2 (code bug): in the scenario AssistantText "Hello", then
ToolUse Bash ls, then AssistantText " world" (throttle firing, sends
succeeding), the relay does deliver three separate units and never merges
the trailing text into an earlier message — but, contradicting the claim
and the source's own comment "Mark that tools are being used after text was
sent" (line 517), `tools_used_after_text` stays `false` after the tool use
even though a message was already delivered: `send_long_message` has no
return statement, so line 480 stores `None` in `last_discord_message` and
the guard of line 518 never fires. -/
theorem C2_tool_flag_code_bug :
    (runEvents (initReader 0) (c2Events.take 1)).2 =
        [Delivery.sendLong ("Hello".data)] ∧
    (runEvents (initReader 0) c2Events).2 =
        [Delivery.sendLong ("Hello".data),
         Delivery.send ("🔧 **Tool Use:** Bash\n   Command: `ls`".data),
         Delivery.sendLong (" world".data)] ∧
    (runEvents (initReader 0) (c2Events.take 2)).1.tools_used_after_text = false ∧
    (runEvents (initReader 0) (c2Events.take 1)).1.last_discord_message = none :=
  ⟨by decide, by decide, by decide, by decide⟩

/-- C8 (code bug): the tool-use path delivers a message but leaves the
`ActivityTimeout` state untouched — the source assigns the dead local
`last_activity_time` (line 596) instead of calling
`activity_timeout.reset()` — so `time_remaining` does not return the full
base timeout afterwards; only the TodoWrite todo-list send (line 564)
actually resets it. -/
theorem C8_inactivity_timer_not_reset :
    (stepEvent (initReader 0) ⟨100, false⟩
        (Event.assistant [Block.toolUse (ToolInput.bash ("ls".data))])).2 ≠ [] ∧
    (stepEvent (initReader 0) ⟨100, false⟩
        (Event.assistant [Block.toolUse (ToolInput.bash ("ls".data))])).1.activity =
      (initReader 0).activity ∧
    (stepEvent (initReader 0) ⟨100, false⟩
        (Event.assistant [Block.toolUse (ToolInput.bash ("ls".data))])).1.activity.time_remaining
        100 = 200 ∧
    (initReader 0).activity.base_timeout = 300 ∧
    (stepEvent (initReader 0) ⟨100, false⟩
        (Event.assistant [Block.toolUse
          (ToolInput.todoWrite [⟨"pending".data, "high".data, "fix".data⟩])])).1.activity.time_remaining
        100 = 300 :=
  ⟨by decide, by decide, by decide, by decide, by decide⟩

/-- C3, counterexample: with a still-running process registered
(`returncode` is `none`), initiating a new session is not rejected: the
spawn-and-register block returns `started` and overwrites the registration
with the new process. -/
theorem C3_counterexample :
    (RelayState.mk (some ⟨1, none⟩) (some 0)).current_claude_process =
        some ⟨1, none⟩ ∧
    (ProcHandle.mk 1 none).returncode = none ∧
    (registerSession (RelayState.mk (some ⟨1, none⟩) (some 0))
        (some ⟨2, none⟩) (some 0)).2 = StartOutcome.started ∧
    (registerSession (RelayState.mk (some ⟨1, none⟩) (some 0))
        (some ⟨2, none⟩) (some 0)).1.current_claude_process = some ⟨2, none⟩ :=
  ⟨rfl, rfl, rfl, rfl⟩

/-- C3 (corrected): initiating a new session is never rejected, whatever the
current registration holds — a successful spawn always starts and replaces
the registered process and channel; in particular, after cancellation or
completion (slot cleared) starting succeeds. -/
theorem C3_start_replaces (st : RelayState) (p : ProcHandle) (ch : Option Nat) :
    registerSession st (some p) ch =
      ({ current_claude_process := some p, current_claude_channel := ch },
       StartOutcome.started) := rfl

/-- C9 (confirmed): the `!stop` command with no registered process replies
"nothing running" and leaves the state unchanged, and against an
already-terminated process replies "already completed" as a no-op that only
clears the registration; both paths are total (no raise). -/
theorem C9_stop_reports (st : RelayState) (p : ProcHandle)
    (g g2 : Bool) (c c2 : Option Int)
    (hnone : st.current_claude_process = none)
    (hsome : p.returncode.isSome = true) :
    stop_claude st g c = (st, StopReply.nothingRunning) ∧
    stop_claude (RelayState.mk (some p) st.current_claude_channel) g2 c2 =
      ({ current_claude_process := none, current_claude_channel := none },
       StopReply.alreadyCompleted) := by
  constructor
  · unfold stop_claude
    rw [hnone]
  · unfold stop_claude
    obtain ⟨rc, hrc⟩ := Option.isSome_iff_exists.mp hsome
    simp only [hrc]

/-- C9 witness: both replies at concrete states. -/
theorem C9_stop_reports_witness :
    stop_claude (RelayState.mk none none) true none =
        (RelayState.mk none none, StopReply.nothingRunning) ∧
    stop_claude (RelayState.mk (some ⟨3, some 0⟩) none) false (some 0) =
      ({ current_claude_process := none, current_claude_channel := none },
       StopReply.alreadyCompleted) :=
  (C9_stop_reports (RelayState.mk none none) ⟨3, some 0⟩ true false none (some 0)
    (by decide) (by decide))
